import Mathlib

/-!
Verification of the retrieval → cache → normalize → rank → aggregate pipeline
of `src/experiments/viewer/streamlit_app.py`.

The dynamic (Python) values flowing through the pipeline are modelled by the
inductive type `Value`; DynamoDB numbers (`Decimal`) and Python ints/floats are
modelled as rationals.  A Python expression that can raise is modelled as an
`Option`-valued function, `none` meaning an exception.
-/

/-- A dynamic Python/DynamoDB value: a string, a number (int/float/Decimal,
modelled as a rational), `None`, or a dict with string keys. -/
inductive Value where
  | str (s : String)
  | num (q : Rat)
  | null
  | obj (fields : List (String × Value))

/-- A raw DynamoDB item: a dict with string keys. -/
def RawRecord := List (String × Value)

/-- Python `d.get(k)` on a dict: `some v` if the key is present, `none` if absent. -/
def dictGet (d : List (String × Value)) (k : String) : Option Value :=
  List.lookup k d

/-- Python `d.get(k, default)` on a dict: the stored value when the key is
present (even when that value is `None`), else the default. -/
def dictGetD (d : List (String × Value)) (k : String) (dflt : Value) : Value :=
  (dictGet d k).getD dflt

/-- Numeric value of a list of decimal digit characters (most significant first). -/
def natOfDigits (cs : List Char) : Nat :=
  cs.foldl (fun n c => 10 * n + (c.toNat - 48)) 0

/-- Modelled fragment of Python `float(s)` on an unsigned literal: decimal
digits with at most one point, at least one digit overall (`"7.5"`, `"7."`,
`".5"`, `"3"`); exponents, `inf`/`nan`, whitespace and underscores are outside
the modelled fragment and rejected. -/
def parseUnsignedFloat (cs : List Char) : Option Rat :=
  let intPart := cs.takeWhile Char.isDigit
  let rest := cs.dropWhile Char.isDigit
  match rest with
  | [] => if intPart.isEmpty then none else some (natOfDigits intPart)
  | '.' :: frac =>
      if frac.all Char.isDigit && !(intPart.isEmpty && frac.isEmpty) then
        some ((natOfDigits intPart : Rat) + (natOfDigits frac : Rat) / (10 ^ frac.length : Nat))
      else none
  | _ => none

/-- Modelled fragment of Python `float(s)`: optional sign then an unsigned
float literal; `none` models a `ValueError`. -/
def parseFloatStr (s : String) : Option Rat :=
  match s.toList with
  | '+' :: cs => parseUnsignedFloat cs
  | '-' :: cs => (parseUnsignedFloat cs).map Neg.neg
  | cs => parseUnsignedFloat cs

/-- Modelled fragment of Python `int(s)`: optional sign then decimal digits only
(so `int("7.5")` raises, modelled as `none`). -/
def parseIntStr (s : String) : Option Int :=
  let signed : List Char → Option Int := fun cs =>
    if !cs.isEmpty && cs.all Char.isDigit then some (natOfDigits cs) else none
  match s.toList with
  | '+' :: cs => signed cs
  | '-' :: cs => (signed cs).map Neg.neg
  | cs => signed cs

/-- Truncation of a rational toward zero, as Python `int(Decimal(...))`. -/
def ratTrunc (q : Rat) : Int :=
  if 0 ≤ q then q.floor else q.ceil

/-- Python `float(v)` on a dynamic value: numbers pass through, numeric strings
are parsed; `None` and dicts raise (`none`). -/
def pyFloat : Value → Option Rat
  | .num q => some q
  | .str s => parseFloatStr s
  | .null => none
  | .obj _ => none

/-- Python `int(v)` on a dynamic value: numbers truncate toward zero,
integer-literal strings are parsed; `None` and dicts raise (`none`). -/
def pyInt : Value → Option Int
  | .num q => some (ratTrunc q)
  | .str s => parseIntStr s
  | .null => none
  | .obj _ => none

/-- Python truthiness of a dynamic value: `None`, `0`, the empty string and the
empty dict are falsy. -/
def truthyV : Value → Bool
  | .null => false
  | .num q => !(q == 0)
  | .str s => !(s == "")
  | .obj d => !d.isEmpty

/-- Python `v.get(k, default)` where `v` must be a dict; on a non-dict (for
example a present-but-`None` sub-object) the attribute access raises (`none`). -/
def objGetD (v : Value) (k : String) (dflt : Value) : Option Value :=
  match v with
  | .obj d => some (dictGetD d k dflt)
  | _ => none

/-- The pattern `int(sub.get(key, 0)) if sub.get(key) else None` from
`format_repo_data` (lines 157-163): `sub` must be a dict, a falsy field gives
`None` (absence), a truthy field is coerced with `int` (which can raise). -/
def scoreField (sub : Value) (key : String) : Option (Option Int) :=
  match sub with
  | .obj d =>
      if truthyV (dictGetD d key .null) then
        (pyInt (dictGetD d key (.num 0))).map some
      else
        some none
  | _ => none

/-- The flat dict built per item by `format_repo_data` (lines 150-166).
Field names follow the source keys; `Option Int` fields model the
value-or-`None` analysis scores. -/
structure ViewRecord where
  repo_name : Value
  final_score : Rat
  analysis_date : Value
  stars : Int
  total_score : Rat
  description : Value
  problem_clarity_score : Option Int
  adoption_ease_score : Option Int
  maturity_health_score : Option Int
  problem_solved : Value
  excitement_score : Option Int
  problem_solution_fit_score : Option Int
  credibility_adoption_score : Option Int
  key_praise_quote : Value
  main_criticism : Value

/-- The body of the `for` loop of `format_repo_data` on one item (lines
145-166); `none` models an uncaught exception while building the dict. -/
def formatOne (item : RawRecord) : Option ViewRecord :=
  let oss_data := dictGetD item "oss_insight_data" (.obj [])
  let repo_analysis := dictGetD item "repo_analysis" (.obj [])
  let community_analysis := dictGetD item "community_analysis" (.obj [])
  (pyFloat (dictGetD item "final_score" (.num 0))).bind fun final_score =>
  (objGetD oss_data "stars" (.num 0)).bind fun starsV =>
  (pyInt starsV).bind fun stars =>
  (objGetD oss_data "total_score" (.num 0)).bind fun totalV =>
  (pyFloat totalV).bind fun total_score =>
  (objGetD oss_data "description" (.str "No description available")).bind fun description =>
  (scoreField repo_analysis "problem_clarity_score").bind fun pcs =>
  (scoreField repo_analysis "adoption_ease_score").bind fun aes =>
  (scoreField repo_analysis "maturity_health_score").bind fun mhs =>
  (objGetD repo_analysis "problem_solved" (.str "Not analyzed")).bind fun problem_solved =>
  (scoreField community_analysis "excitement_score").bind fun exc =>
  (scoreField community_analysis "problem_solution_fit_score").bind fun fit =>
  (scoreField community_analysis "credibility_adoption_score").bind fun cred =>
  (objGetD community_analysis "key_praise_quote" (.str "")).bind fun praise =>
  (objGetD community_analysis "main_criticism" (.str "")).bind fun crit =>
  some {
    repo_name := dictGetD item "repo_name" (.str "Unknown")
    final_score := final_score
    analysis_date := dictGetD item "analysis_date" (.str "Unknown")
    stars := stars
    total_score := total_score
    description := description
    problem_clarity_score := pcs
    adoption_ease_score := aes
    maturity_health_score := mhs
    problem_solved := problem_solved
    excitement_score := exc
    problem_solution_fit_score := fit
    credibility_adoption_score := cred
    key_praise_quote := praise
    main_criticism := crit }

/-- `format_repo_data` (lines 141-170): formats each item in order, appending
to the result list; an exception on any item aborts the whole call (`none`). -/
def format_repo_data : List RawRecord → Option (List ViewRecord)
  | [] => some []
  | item :: rest =>
      (formatOne item).bind fun v =>
      (format_repo_data rest).bind fun vs =>
      some (v :: vs)

/-- The sort key of `load_dynamodb_data` (line 133):
`float(x.get('final_score', 0))`; `none` models a raised coercion error. -/
def scoreKey (item : RawRecord) : Option Rat :=
  pyFloat (dictGetD item "final_score" (.num 0))

/-- Pairs each item with its extracted sort key, in order; `none` if any
extraction raises. -/
def keyedItems : List RawRecord → Option (List (Rat × RawRecord))
  | [] => some []
  | it :: rest =>
      (scoreKey it).bind fun q =>
      (keyedItems rest).bind fun ks =>
      some ((q, it) :: ks)

/-- Descending order on extracted keys, non-strict so that insertion sort is
stable in the same way Python `sorted(..., reverse=True)` is. -/
def descKey (a b : Rat × RawRecord) : Prop := b.1 ≤ a.1

instance : DecidableRel descKey := fun a b => inferInstanceAs (Decidable (b.1 ≤ a.1))

instance : IsTotal (Rat × RawRecord) descKey := ⟨fun a b => le_total b.1 a.1⟩

instance : IsTrans (Rat × RawRecord) descKey := ⟨fun _ _ _ hab hbc => le_trans hbc hab⟩

/-- The sort-and-truncate step of `load_dynamodb_data` (lines 133-135):
`sorted(items, key=lambda x: float(x.get('final_score', 0)), reverse=True)[:limit]`,
a stable descending sort on the extracted key followed by truncation;
`none` models a coercion error raised by the key function. -/
def rankStep (items : List RawRecord) (limit : Nat) : Option (List RawRecord) :=
  (keyedItems items).map (fun ks => ((ks.insertionSort descKey).map Prod.snd).take limit)

/-- Outcome of the DynamoDB session/scan inside the `try` block of
`load_dynamodb_data`: the scanned items, or any raised exception. -/
inductive StoreResult where
  | ok (items : List RawRecord)
  | err

/-- The `try`/`except` body of `load_dynamodb_data` (lines 124-139): on a scan
failure, or on a coercion error inside the sort key, the `except` branch
returns the empty list (the `st.error` call is presentation, not modelled). -/
def loadBody (store : StoreResult) (limit : Nat) : List RawRecord :=
  match store with
  | .err => []
  | .ok items =>
      match rankStep items limit with
      | some out => out
      | none => []

/-- The mutable state of the `st.cache_data` decorator: one entry per argument
value (`limit`), holding the time the value was stored and the stored value. -/
structure CacheState where
  entries : List (Nat × Nat × List RawRecord)

/-- Cached entry for a given `limit`, if any: `(cached_at, value)`. -/
def CacheState.find (st : CacheState) (limit : Nat) : Option (Nat × List RawRecord) :=
  List.lookup limit st.entries

/-- Stores a value for `limit` at time `now`, replacing any previous entry for
that `limit` (lookup returns the newest entry). -/
def CacheState.put (st : CacheState) (limit now : Nat) (v : List RawRecord) : CacheState :=
  ⟨(limit, now, v) :: st.entries⟩

/-- The `ttl=300` argument of the `st.cache_data` decorator (line 121). -/
def cacheTTL : Nat := 300

/-- `load_dynamodb_data` as decorated with `st.cache_data(ttl=300)` (lines
121-139): on a fresh cached entry for the same `limit` (age strictly below the
ttl) the cached value is returned without running the body; otherwise the body
runs (one store scan attempt) and whatever it returns — including the empty
list produced by the `except` branch — is stored with `cached_at = now`.
Returns the value, the new cache state, and whether the body ran. -/
def load_dynamodb_data (store : StoreResult) (st : CacheState) (limit now : Nat) :
    List RawRecord × CacheState × Bool :=
  match st.find limit with
  | some (t, v) =>
      if now - t < cacheTTL then (v, st, false)
      else
        let r := loadBody store limit
        (r, st.put limit now r, true)
  | none =>
      let r := loadBody store limit
      (r, st.put limit now r, true)

/-- The overview statistics of `main` (lines 233-272): total count, average
final score, total stars, and the count of analyzed repositories. -/
structure Summary where
  count : Nat
  average_score : Rat
  total_stars : Int
  analyzed_count : Nat

/-- `len([r for r in repos if r['problem_clarity_score'] is not None])`
(line 265). -/
def analyzedCount (repos : List ViewRecord) : Nat :=
  (repos.filter (fun r => r.problem_clarity_score.isSome)).length

/-- The aggregate step of `main` (lines 228-272): when `repos` is empty, `main`
returns early (line 230) and no statistic is computed (`none`); otherwise the
four overview statistics are computed over `repos`. -/
def mainSummary (repos : List ViewRecord) : Option Summary :=
  if repos.isEmpty then none
  else some {
    count := repos.length
    average_score := (repos.map (fun r => r.final_score)).sum / (repos.length : Rat)
    total_stars := (repos.map (fun r => r.stars)).sum
    analyzed_count := analyzedCount repos }

/-- Test record with a string-encoded numeric score (spec section 8). -/
def recA : RawRecord := [("repo_name", Value.str "A"), ("final_score", Value.str "7.5")]

/-- Test record with a plain numeric score (spec section 8). -/
def recB : RawRecord := [("repo_name", Value.str "B"), ("final_score", Value.num 3)]

/-- Test record with a third score, for ranking tests. -/
def recC : RawRecord := [("repo_name", Value.str "C"), ("final_score", Value.num 5)]

/-- Test record whose nested sub-object is present but `None`. -/
def recNullSub : RawRecord := [("oss_insight_data", Value.null)]

/-- Test record whose `problem_clarity_score` is the integer `0`. -/
def recZeroScore : RawRecord :=
  [("repo_analysis", Value.obj [("problem_clarity_score", Value.num 0)])]

/-- Test record where all three sub-objects are present as dicts, including
truthy text fields that are never int-coerced and one analysis score. -/
def recGood : RawRecord :=
  [("final_score", Value.num 5), ("oss_insight_data", Value.obj []),
   ("repo_analysis", Value.obj [("problem_clarity_score", Value.num 4),
      ("problem_solved", Value.str "Solves X")]),
   ("community_analysis", Value.obj [("key_praise_quote", Value.str "great")])]

/-- The fully-defaulted view record, i.e. the output of `format_repo_data` on
an item with no recognized keys. -/
def defaultView : ViewRecord :=
  { repo_name := .str "Unknown"
    final_score := 0
    analysis_date := .str "Unknown"
    stars := 0
    total_score := 0
    description := .str "No description available"
    problem_clarity_score := none
    adoption_ease_score := none
    maturity_health_score := none
    problem_solved := .str "Not analyzed"
    excitement_score := none
    problem_solution_fit_score := none
    credibility_adoption_score := none
    key_praise_quote := .str ""
    main_criticism := .str "" }

/-- The normalization of `recB`. -/
def viewB : ViewRecord := { defaultView with repo_name := .str "B", final_score := 3 }

theorem formatOne_empty : formatOne [] = some defaultView := rfl

/-- Extraction of the per-field equations from a successful `formatOne` run. -/
theorem formatOne_fields {item : RawRecord} {v : ViewRecord} (h : formatOne item = some v) :
    pyFloat (dictGetD item "final_score" (.num 0)) = some v.final_score ∧
    v.repo_name = dictGetD item "repo_name" (.str "Unknown") ∧
    v.analysis_date = dictGetD item "analysis_date" (.str "Unknown") ∧
    objGetD (dictGetD item "oss_insight_data" (.obj [])) "description"
      (.str "No description available") = some v.description ∧
    scoreField (dictGetD item "repo_analysis" (.obj [])) "problem_clarity_score" =
      some v.problem_clarity_score ∧
    scoreField (dictGetD item "repo_analysis" (.obj [])) "adoption_ease_score" =
      some v.adoption_ease_score ∧
    scoreField (dictGetD item "repo_analysis" (.obj [])) "maturity_health_score" =
      some v.maturity_health_score ∧
    objGetD (dictGetD item "repo_analysis" (.obj [])) "problem_solved"
      (.str "Not analyzed") = some v.problem_solved ∧
    scoreField (dictGetD item "community_analysis" (.obj [])) "excitement_score" =
      some v.excitement_score ∧
    scoreField (dictGetD item "community_analysis" (.obj [])) "problem_solution_fit_score" =
      some v.problem_solution_fit_score ∧
    scoreField (dictGetD item "community_analysis" (.obj [])) "credibility_adoption_score" =
      some v.credibility_adoption_score ∧
    objGetD (dictGetD item "community_analysis" (.obj [])) "key_praise_quote"
      (.str "") = some v.key_praise_quote ∧
    objGetD (dictGetD item "community_analysis" (.obj [])) "main_criticism"
      (.str "") = some v.main_criticism := by
  unfold formatOne at h
  obtain ⟨fs, hfs, h⟩ := Option.bind_eq_some.mp h
  obtain ⟨sv, hsv, h⟩ := Option.bind_eq_some.mp h
  obtain ⟨si, hsi, h⟩ := Option.bind_eq_some.mp h
  obtain ⟨tv, htv, h⟩ := Option.bind_eq_some.mp h
  obtain ⟨ts, hts, h⟩ := Option.bind_eq_some.mp h
  obtain ⟨de, hde, h⟩ := Option.bind_eq_some.mp h
  obtain ⟨pcs, hpcs, h⟩ := Option.bind_eq_some.mp h
  obtain ⟨aes, haes, h⟩ := Option.bind_eq_some.mp h
  obtain ⟨mhs, hmhs, h⟩ := Option.bind_eq_some.mp h
  obtain ⟨ps, hps, h⟩ := Option.bind_eq_some.mp h
  obtain ⟨exc, hexc, h⟩ := Option.bind_eq_some.mp h
  obtain ⟨fit, hfit, h⟩ := Option.bind_eq_some.mp h
  obtain ⟨cred, hcred, h⟩ := Option.bind_eq_some.mp h
  obtain ⟨pq, hpq, h⟩ := Option.bind_eq_some.mp h
  obtain ⟨mc, hmc, h⟩ := Option.bind_eq_some.mp h
  obtain hv := (Option.some.injEq _ _).mp h
  subst hv
  exact ⟨hfs, rfl, rfl, hde, hpcs, haes, hmhs, hps, hexc, hfit, hcred, hpq, hmc⟩

/-- Helper: the score-field pattern does not raise on a dict whose truthy
fields accept `int` coercion. -/
theorem scoreField_total (d : List (String × Value)) (key : String)
    (h : truthyV (dictGetD d key .null) = true →
      (pyInt (dictGetD d key (.num 0))).isSome = true) :
    (scoreField (.obj d) key).isSome = true := by
  cases ht : truthyV (dictGetD d key .null) with
  | false => simp [scoreField, ht]
  | true =>
      obtain ⟨n, hn⟩ := Option.isSome_iff_exists.mp (h ht)
      simp [scoreField, ht, hn]

/-- C1 (amended): `format_repo_data` returns a ViewRecord without raising on
every RawRecord whose three nested sub-objects, when present, are dicts, whose
`final_score` is float-coercible, whose `stars` is int-coercible, whose
`total_score` is float-coercible, and whose six analysis score fields, when
truthy, are int-coercible; other (text) fields are never coerced and cannot
make it raise, and missing fields degrade to the documented defaults. -/
theorem formatOne_total_of_wellShaped (item : RawRecord) (doss dra dca : List (String × Value))
    (hoss : dictGetD item "oss_insight_data" (.obj []) = .obj doss)
    (hra : dictGetD item "repo_analysis" (.obj []) = .obj dra)
    (hca : dictGetD item "community_analysis" (.obj []) = .obj dca)
    (hfs : (pyFloat (dictGetD item "final_score" (.num 0))).isSome = true)
    (hstars : (pyInt (dictGetD doss "stars" (.num 0))).isSome = true)
    (htot : (pyFloat (dictGetD doss "total_score" (.num 0))).isSome = true)
    (hraScores : ∀ key ∈ (["problem_clarity_score", "adoption_ease_score",
        "maturity_health_score"] : List String),
      truthyV (dictGetD dra key .null) = true →
      (pyInt (dictGetD dra key (.num 0))).isSome = true)
    (hcaScores : ∀ key ∈ (["excitement_score", "problem_solution_fit_score",
        "credibility_adoption_score"] : List String),
      truthyV (dictGetD dca key .null) = true →
      (pyInt (dictGetD dca key (.num 0))).isSome = true) :
    (formatOne item).isSome = true := by
  obtain ⟨fs, hfs2⟩ := Option.isSome_iff_exists.mp hfs
  obtain ⟨st, hst⟩ := Option.isSome_iff_exists.mp hstars
  obtain ⟨tt, htt⟩ := Option.isSome_iff_exists.mp htot
  obtain ⟨r1, h1⟩ := Option.isSome_iff_exists.mp
    (scoreField_total dra "problem_clarity_score" (hraScores _ (by simp)))
  obtain ⟨r2, h2⟩ := Option.isSome_iff_exists.mp
    (scoreField_total dra "adoption_ease_score" (hraScores _ (by simp)))
  obtain ⟨r3, h3⟩ := Option.isSome_iff_exists.mp
    (scoreField_total dra "maturity_health_score" (hraScores _ (by simp)))
  obtain ⟨r4, h4⟩ := Option.isSome_iff_exists.mp
    (scoreField_total dca "excitement_score" (hcaScores _ (by simp)))
  obtain ⟨r5, h5⟩ := Option.isSome_iff_exists.mp
    (scoreField_total dca "problem_solution_fit_score" (hcaScores _ (by simp)))
  obtain ⟨r6, h6⟩ := Option.isSome_iff_exists.mp
    (scoreField_total dca "credibility_adoption_score" (hcaScores _ (by simp)))
  simp [formatOne, hoss, hra, hca, hfs2, hst, htt, h1, h2, h3, h4, h5, h6, objGetD]

/-- C1 counterexample: a RawRecord whose `oss_insight_data` is present but
`None` makes `format_repo_data` raise an `AttributeError` (modelled `none`),
so the normalizer is not total over every RawRecord shape. -/
theorem formatOne_null_subobject_raises : formatOne recNullSub = none := rfl

/-- C1 witness input instance: a record whose `repo_analysis` and
`community_analysis` carry truthy text fields alongside one integer score. -/
theorem formatOne_total_of_wellShaped_witness : (formatOne recGood).isSome = true :=
  formatOne_total_of_wellShaped recGood []
    [("problem_clarity_score", Value.num 4), ("problem_solved", Value.str "Solves X")]
    [("key_praise_quote", Value.str "great")]
    rfl rfl rfl rfl rfl rfl
    (by
      intro key hk ht
      simp only [List.mem_cons, List.not_mem_nil, or_false] at hk
      rcases hk with rfl | rfl | rfl
      · rfl
      · exact absurd ht (by decide)
      · exact absurd ht (by decide))
    (by
      intro key hk ht
      simp only [List.mem_cons, List.not_mem_nil, or_false] at hk
      rcases hk with rfl | rfl | rfl <;> exact absurd ht (by decide))

/-- C8 (amended): the default sentinels substituted by `format_repo_data` are
the capitalized strings of the source: `"Unknown"` for a missing `repo_name`,
`"No description available"` for a missing description,
`"Not analyzed"` for a missing `problem_solved`, and the empty string for
missing praise quote and criticism. -/
theorem formatOne_defaults (item : RawRecord) (v : ViewRecord) (h : formatOne item = some v) :
    (dictGet item "repo_name" = none → v.repo_name = .str "Unknown") ∧
    (∀ d, dictGetD item "oss_insight_data" (.obj []) = .obj d →
      dictGet d "description" = none → v.description = .str "No description available") ∧
    (∀ d, dictGetD item "repo_analysis" (.obj []) = .obj d →
      dictGet d "problem_solved" = none → v.problem_solved = .str "Not analyzed") ∧
    (∀ d, dictGetD item "community_analysis" (.obj []) = .obj d →
      dictGet d "key_praise_quote" = none → v.key_praise_quote = .str "") ∧
    (∀ d, dictGetD item "community_analysis" (.obj []) = .obj d →
      dictGet d "main_criticism" = none → v.main_criticism = .str "") := by
  obtain ⟨hfs, hrn, had, hde, hpcs, haes, hmhs, hps, hexc, hfit, hcred, hpq, hmc⟩ :=
    formatOne_fields h
  refine ⟨?_, ?_, ?_, ?_, ?_⟩
  · intro hn
    rw [hrn]
    simp [dictGetD, hn]
  · intro d hd hn
    rw [hd] at hde
    simp [objGetD, dictGetD, hn] at hde
    exact hde.symm
  · intro d hd hn
    rw [hd] at hps
    simp [objGetD, dictGetD, hn] at hps
    exact hps.symm
  · intro d hd hn
    rw [hd] at hpq
    simp [objGetD, dictGetD, hn] at hpq
    exact hpq.symm
  · intro d hd hn
    rw [hd] at hmc
    simp [objGetD, dictGetD, hn] at hmc
    exact hmc.symm

/-- C8 counterexample: the `id` default sentinel in the code is the capitalized
string `"Unknown"`, not the documented lowercase `"unknown"` (and likewise the
other sentinels are capitalized). -/
theorem default_sentinels_are_capitalized :
    (formatOne []).map (fun v => v.repo_name) = some (Value.str "Unknown") ∧
    Value.str "Unknown" ≠ Value.str "unknown" ∧
    (formatOne []).map (fun v => v.problem_solved) = some (Value.str "Not analyzed") ∧
    Value.str "Not analyzed" ≠ Value.str "not analyzed" := by
  refine ⟨rfl, ?_, rfl, ?_⟩ <;>
    · intro h
      injection h with h2
      exact absurd h2 (by decide)

/-- C8 witness input instance. -/
theorem formatOne_defaults_witness :
    defaultView.repo_name = .str "Unknown" ∧
    defaultView.description = .str "No description available" ∧
    defaultView.problem_solved = .str "Not analyzed" ∧
    defaultView.key_praise_quote = .str "" ∧
    defaultView.main_criticism = .str "" :=
  ⟨(formatOne_defaults [] defaultView rfl).1 rfl,
   (formatOne_defaults [] defaultView rfl).2.1 [] rfl rfl,
   (formatOne_defaults [] defaultView rfl).2.2.1 [] rfl rfl,
   (formatOne_defaults [] defaultView rfl).2.2.2.1 [] rfl rfl,
   (formatOne_defaults [] defaultView rfl).2.2.2.2 [] rfl rfl⟩

/-- C4 (amended): an analysis field is present in the normalized output iff the
raw nested field is truthy (present, non-null, non-zero, non-empty), so a
nested field holding the integer `0` produces an absent field, not `0`; and a
RawRecord entirely missing `repo_analysis` yields all three analysis fields
absent, with `analyzed_count = 0` on the one-record set. -/
theorem score_presence_iff_truthy :
    (∀ d key r, scoreField (.obj d) key = some r →
      r.isSome = truthyV (dictGetD d key .null)) ∧
    (∀ item v, dictGet item "repo_analysis" = none → formatOne item = some v →
      v.problem_clarity_score = none ∧ v.adoption_ease_score = none ∧
      v.maturity_health_score = none ∧ analyzedCount [v] = 0) := by
  constructor
  · intro d key r h
    cases ht : truthyV (dictGetD d key .null) with
    | false =>
        simp only [scoreField, ht, if_neg Bool.false_ne_true, Option.some.injEq] at h
        simp [← h]
    | true =>
        cases hp : pyInt (dictGetD d key (.num 0)) with
        | none => simp [scoreField, ht, hp] at h
        | some n =>
            simp [scoreField, ht, hp] at h
            simp [← h]
  · intro item v hn h
    obtain ⟨_, _, _, _, hpcs, haes, hmhs, _, _, _, _, _, _⟩ := formatOne_fields h
    have hempty : dictGetD item "repo_analysis" (.obj []) = .obj [] := by
      simp [dictGetD, hn]
    rw [hempty] at hpcs haes hmhs
    have hsf : scoreField (.obj []) "problem_clarity_score" = some none := rfl
    have e1 : v.problem_clarity_score = none := by
      rw [hsf] at hpcs
      exact (Option.some.injEq _ _).mp hpcs.symm
    have e2 : v.adoption_ease_score = none := by
      rw [show scoreField (.obj []) "adoption_ease_score" = some none from rfl] at haes
      exact (Option.some.injEq _ _).mp haes.symm
    have e3 : v.maturity_health_score = none := by
      rw [show scoreField (.obj []) "maturity_health_score" = some none from rfl] at hmhs
      exact (Option.some.injEq _ _).mp hmhs.symm
    exact ⟨e1, e2, e3, by simp [analyzedCount, e1]⟩

/-- C4 counterexample: a raw `problem_clarity_score` present with the non-null
integer value `0` yields an absent normalized field (Python truthiness treats
`0` as falsy), contradicting present-iff-existed-and-non-null. -/
theorem zero_score_becomes_absent :
    dictGet [("problem_clarity_score", Value.num 0)] "problem_clarity_score" =
      some (Value.num 0) ∧
    (formatOne recZeroScore).map (fun v => v.problem_clarity_score) = some none :=
  ⟨rfl, rfl⟩

/-- C4 witness input instance. -/
theorem score_presence_iff_truthy_witness :
    viewB.problem_clarity_score = none ∧ viewB.adoption_ease_score = none ∧
    viewB.maturity_health_score = none ∧ analyzedCount [viewB] = 0 :=
  score_presence_iff_truthy.2 recB viewB rfl rfl

/-- C9: normalization over a sequence is the element-wise map of the
single-record normalizer: on success, `format_repo_data` yields exactly one
ViewRecord per RawRecord, in input order — no filtering, reordering or
duplication. -/
theorem format_repo_data_elementwise (items : List RawRecord) (out : List ViewRecord)
    (h : format_repo_data items = some out) :
    out.length = items.length ∧ items.map formatOne = out.map some := by
  induction items generalizing out with
  | nil =>
      unfold format_repo_data at h
      obtain rfl := (Option.some.injEq _ _).mp h
      exact ⟨rfl, rfl⟩
  | cons it rest ih =>
      unfold format_repo_data at h
      obtain ⟨v, hv, h⟩ := Option.bind_eq_some.mp h
      obtain ⟨vs, hvs, h⟩ := Option.bind_eq_some.mp h
      obtain rfl := (Option.some.injEq _ _).mp h
      obtain ⟨hlen, hmap⟩ := ih vs hvs
      exact ⟨by simp [hlen], by simp [hv, hmap]⟩

/-- C9 witness input instance. -/
theorem format_repo_data_elementwise_witness :
    ([viewB] : List ViewRecord).length = [recB].length ∧
    [recB].map formatOne = [viewB].map some :=
  format_repo_data_elementwise [recB] [viewB] rfl

/-- Helper: the string `"7.5"` float-coerces to the rational 15/2. -/
theorem parseFloatStr_75 : parseFloatStr "7.5" = some ((15 : Rat)/2) := by
  have h : parseFloatStr "7.5" =
      some (((7 : Nat) : Rat) + ((5 : Nat) : Rat) / ((10 : Nat) : Rat)) := rfl
  rw [h]
  norm_num

/-- C7: for the two records `{repo_name: "A", final_score: "7.5"}` and
`{repo_name: "B", final_score: 3}`, the sort-and-truncate step with limit 2
followed by normalization returns them in the order A, B with scores 7.5 and
3.0: the string-encoded score is coerced for both ranking and the view field. -/
theorem string_score_coerced_pipeline :
    ((rankStep [recA, recB] 2).bind format_repo_data).map
      (fun l => l.map (fun v => (v.repo_name, v.final_score))) =
    some [(Value.str "A", (15 : Rat)/2), (Value.str "B", 3)] := by
  have hA : scoreKey recA = some ((15 : Rat)/2) := by
    have h : scoreKey recA = parseFloatStr "7.5" := rfl
    rw [h, parseFloatStr_75]
  have hB : scoreKey recB = some (3 : Rat) := rfl
  have hrank : rankStep [recA, recB] 2 = some [recA, recB] := by
    simp [rankStep, keyedItems, hA, hB, List.insertionSort, List.orderedInsert, descKey]
    norm_num
  have hfA : formatOne recA = some ⟨.str "A", (15 : Rat)/2, .str "Unknown", 0, 0,
      .str "No description available", none, none, none, .str "Not analyzed",
      none, none, none, .str "", .str ""⟩ := by
    have h0 : formatOne recA = some ⟨.str "A",
        ((7 : Nat) : Rat) + ((5 : Nat) : Rat) / ((10 : Nat) : Rat), .str "Unknown", 0, 0,
        .str "No description available", none, none, none, .str "Not analyzed",
        none, none, none, .str "", .str ""⟩ := rfl
    rw [h0]
    simp only [Option.some.injEq, ViewRecord.mk.injEq]
    norm_num
  have hfB : formatOne recB = some ⟨.str "B", 3, .str "Unknown", 0, 0,
      .str "No description available", none, none, none, .str "Not analyzed",
      none, none, none, .str "", .str ""⟩ := rfl
  rw [hrank]
  simp [format_repo_data, hfA, hfB]

/-- Helper: a successful keying pairs each item with its own key, preserving
the item sequence. -/
theorem keyedItems_spec (items : List RawRecord) (ks : List (Rat × RawRecord))
    (h : keyedItems items = some ks) :
    ks.map Prod.snd = items ∧ ∀ p ∈ ks, scoreKey p.2 = some p.1 := by
  induction items generalizing ks with
  | nil =>
      unfold keyedItems at h
      obtain rfl := (Option.some.injEq _ _).mp h
      exact ⟨rfl, by simp⟩
  | cons it rest ih =>
      unfold keyedItems at h
      obtain ⟨q, hq, h⟩ := Option.bind_eq_some.mp h
      obtain ⟨ks2, hks, h⟩ := Option.bind_eq_some.mp h
      obtain rfl := (Option.some.injEq _ _).mp h
      obtain ⟨hmap, hinv⟩ := ih ks2 hks
      refine ⟨by simp [hmap], ?_⟩
      intro p hp
      rcases List.mem_cons.mp hp with rfl | hp2
      · exact hq
      · exact hinv p hp2

/-- Helper: ordered insertion for the descending key order only skips entries
with strictly larger keys, so the filter at any key sees the inserted element
first. -/
theorem filter_orderedInsert_key (q : Rat) (x : Rat × RawRecord)
    (l : List (Rat × RawRecord)) :
    (l.orderedInsert descKey x).filter (fun p => p.1 = q) =
      (if x.1 = q then [x] else []) ++ l.filter (fun p => p.1 = q) := by
  induction l with
  | nil => by_cases hx : x.1 = q <;> simp [List.orderedInsert, hx]
  | cons y ys ih =>
      by_cases hr : descKey x y
      · simp only [List.orderedInsert, if_pos hr, List.filter_cons]
        by_cases hx : x.1 = q <;> by_cases hy : y.1 = q <;> simp [hx, hy]
      · simp only [List.orderedInsert, if_neg hr, List.filter_cons]
        have hlt : x.1 < y.1 := lt_of_not_le hr
        by_cases hx : x.1 = q
        · have hy : y.1 ≠ q := ne_of_gt (hx ▸ hlt)
          simp [hx, hy, ih]
        · by_cases hy : y.1 = q <;> simp [hx, hy, ih]

/-- Helper: insertion sort by descending key is stable: it preserves the
subsequence of entries carrying any given key. -/
theorem filter_insertionSort_key (q : Rat) (l : List (Rat × RawRecord)) :
    (l.insertionSort descKey).filter (fun p => p.1 = q) =
      l.filter (fun p => p.1 = q) := by
  induction l with
  | nil => rfl
  | cons x xs ih =>
      rw [List.insertionSort, filter_orderedInsert_key q x _, ih, List.filter_cons]
      by_cases hx : x.1 = q <;> simp [hx]

/-- Helper: under the pairing invariant, filtering the projected items by
score key is projecting the filter by first component. -/
theorem filter_map_snd (q : Rat) (l : List (Rat × RawRecord))
    (hinv : ∀ p ∈ l, scoreKey p.2 = some p.1) :
    (l.map Prod.snd).filter (fun it => scoreKey it = some q) =
      (l.filter (fun p => p.1 = q)).map Prod.snd := by
  induction l with
  | nil => rfl
  | cons p ps ih =>
      have hp := hinv p (List.mem_cons_self p ps)
      have hrest : ∀ x ∈ ps, scoreKey x.2 = some x.1 :=
        fun x hx => hinv x (List.mem_cons_of_mem p hx)
      simp only [List.map_cons, List.filter_cons]
      by_cases hq : p.1 = q
      · simp [hp, hq, ih hrest]
      · have hne : ¬ (scoreKey p.2 = some q) := by
          rw [hp]
          simp [hq]
        simp [hne, hq, ih hrest]

/-- C2: the sort-and-truncate step of `load_dynamodb_data` returns
`min limit n` records in non-increasing score order, and the output is the
limit-prefix of a sorted sequence in which records of any given score keep
their original scan order (stability). -/
theorem rankStep_spec (items : List RawRecord) (limit : Nat) (out : List RawRecord)
    (h : rankStep items limit = some out) :
    out.length = min limit items.length ∧
    out.Pairwise (fun a b => (scoreKey b).getD 0 ≤ (scoreKey a).getD 0) ∧
    ∃ s : List RawRecord, out = s.take limit ∧
      ∀ q : Rat, s.filter (fun it => scoreKey it = some q) =
        items.filter (fun it => scoreKey it = some q) := by
  obtain ⟨ks, hks, h2⟩ := Option.map_eq_some'.mp h
  subst h2
  obtain ⟨hmap, hinv⟩ := keyedItems_spec items ks hks
  have hinv2 : ∀ p ∈ ks.insertionSort descKey, scoreKey p.2 = some p.1 :=
    fun p hp => hinv p ((List.mem_insertionSort descKey).mp hp)
  have hlen : ((ks.insertionSort descKey).map Prod.snd).length = items.length := by
    rw [List.length_map, List.length_insertionSort, ← hmap, List.length_map]
  refine ⟨by rw [List.length_take, hlen], ?_, (ks.insertionSort descKey).map Prod.snd,
    rfl, ?_⟩
  · have hsorted : List.Sorted descKey (ks.insertionSort descKey) :=
      List.sorted_insertionSort descKey ks
    have hpw : (ks.insertionSort descKey).Pairwise
        (fun p p2 => (scoreKey p2.2).getD 0 ≤ (scoreKey p.2).getD 0) := by
      refine List.Pairwise.imp_of_mem ?_ hsorted
      intro a b ha hb hr
      rw [hinv2 a ha, hinv2 b hb]
      simpa using hr
    exact List.Pairwise.sublist (List.take_sublist _ _) (List.pairwise_map.mpr hpw)
  · intro q
    rw [filter_map_snd q _ hinv2, filter_insertionSort_key q ks,
      ← filter_map_snd q ks hinv, hmap]

/-- C2 witness input instance. -/
theorem rankStep_spec_witness :
    ([recC] : List RawRecord).length = min 1 ([recB, recC] : List RawRecord).length ∧
    ([recC] : List RawRecord).Pairwise
      (fun a b => (scoreKey b).getD 0 ≤ (scoreKey a).getD 0) ∧
    ∃ s : List RawRecord, [recC] = s.take 1 ∧
      ∀ q : Rat, s.filter (fun it => scoreKey it = some q) =
        ([recB, recC] : List RawRecord).filter (fun it => scoreKey it = some q) :=
  rankStep_spec [recB, recC] 1 [recC] rfl

/-- Helper: a stored cache entry is found again with the stored time and value. -/
theorem find_put (st : CacheState) (limit now : Nat) (v : List RawRecord) :
    (st.put limit now v).find limit = some (now, v) := by
  simp [CacheState.find, CacheState.put, List.lookup]

/-- C3 counterexample: with a failing store, an empty cache, limit 5 at time 0,
`load_dynamodb_data` returns the plain empty list — no error value reaches the
caller — and that empty list is stored in the cache (entry for limit 5 at
time 0), so the failure result is cached. -/
theorem store_failure_returns_and_caches_empty :
    load_dynamodb_data .err ⟨[]⟩ 5 0 = ([], ⟨[(5, 0, [])]⟩, true) ∧
    CacheState.find ⟨[(5, 0, [])]⟩ 5 = some (0, []) := by
  constructor <;> rfl

/-- C3 (amended): when the store scan fails and the cache has no fresh entry
for `limit`, the pipeline catches the exception and returns the empty list to
its caller (there is no error channel), and `st.cache_data` stores that empty
list like any successful result, with `cached_at = now`. -/
theorem store_error_swallowed_and_cached (st : CacheState) (limit now : Nat)
    (hmiss : ∀ t v, st.find limit = some (t, v) → cacheTTL ≤ now - t) :
    (load_dynamodb_data .err st limit now).1 = [] ∧
    ((load_dynamodb_data .err st limit now).2.1).find limit = some (now, []) ∧
    (load_dynamodb_data .err st limit now).2.2 = true := by
  unfold load_dynamodb_data
  cases hf : st.find limit with
  | none => simp [loadBody, find_put]
  | some tv =>
      obtain ⟨t, v⟩ := tv
      have hnlt : ¬ (now - t < cacheTTL) := not_lt.mpr (hmiss t v hf)
      simp [hnlt, loadBody, find_put]

/-- C3 witness input instance. -/
theorem store_error_swallowed_and_cached_witness :
    (load_dynamodb_data .err ⟨[]⟩ 7 0).1 = [] ∧
    ((load_dynamodb_data .err ⟨[]⟩ 7 0).2.1).find 7 = some (0, []) ∧
    (load_dynamodb_data .err ⟨[]⟩ 7 0).2.2 = true :=
  store_error_swallowed_and_cached ⟨[]⟩ 7 0
    (fun t v h => by simp [CacheState.find, List.lookup] at h)

/-- C5: with ttl 300, after a fetch at time 0 a lookup at time 299 with the
same limit returns the identical cached sequence without running the body
(no store call) and leaves the cache unchanged, while a lookup at time 301
runs the body again and replaces the cached entry with `cached_at = 301` and
the value freshly computed from the (possibly different) store contents. -/
theorem cache_ttl_behavior (items items2 : List RawRecord) (limit : Nat) :
    (load_dynamodb_data (.ok items) ⟨[]⟩ limit 0).2.2 = true ∧
    (load_dynamodb_data (.ok items2)
        (load_dynamodb_data (.ok items) ⟨[]⟩ limit 0).2.1 limit 299).1 =
      (load_dynamodb_data (.ok items) ⟨[]⟩ limit 0).1 ∧
    (load_dynamodb_data (.ok items2)
        (load_dynamodb_data (.ok items) ⟨[]⟩ limit 0).2.1 limit 299).2.2 = false ∧
    (load_dynamodb_data (.ok items2)
        (load_dynamodb_data (.ok items) ⟨[]⟩ limit 0).2.1 limit 299).2.1 =
      (load_dynamodb_data (.ok items) ⟨[]⟩ limit 0).2.1 ∧
    (load_dynamodb_data (.ok items2)
        (load_dynamodb_data (.ok items) ⟨[]⟩ limit 0).2.1 limit 301).2.2 = true ∧
    ((load_dynamodb_data (.ok items2)
        (load_dynamodb_data (.ok items) ⟨[]⟩ limit 0).2.1 limit 301).2.1).find limit =
      some (301, loadBody (.ok items2) limit) := by
  have h0 : load_dynamodb_data (.ok items) ⟨[]⟩ limit 0 =
      (loadBody (.ok items) limit,
        CacheState.put ⟨[]⟩ limit 0 (loadBody (.ok items) limit), true) := by
    unfold load_dynamodb_data
    simp [CacheState.find, List.lookup]
  have h299 : load_dynamodb_data (.ok items2)
      (CacheState.put ⟨[]⟩ limit 0 (loadBody (.ok items) limit)) limit 299 =
      (loadBody (.ok items) limit,
        CacheState.put ⟨[]⟩ limit 0 (loadBody (.ok items) limit), false) := by
    unfold load_dynamodb_data
    rw [find_put]
    norm_num [cacheTTL]
  have h301 : load_dynamodb_data (.ok items2)
      (CacheState.put ⟨[]⟩ limit 0 (loadBody (.ok items) limit)) limit 301 =
      (loadBody (.ok items2) limit,
        CacheState.put (CacheState.put ⟨[]⟩ limit 0 (loadBody (.ok items) limit))
          limit 301 (loadBody (.ok items2) limit), true) := by
    unfold load_dynamodb_data
    rw [find_put]
    norm_num [cacheTTL]
  rw [h0]
  rw [h299, h301, find_put]
  exact ⟨rfl, rfl, rfl, rfl, rfl, rfl⟩

/-- C6 counterexample: for an empty record list `main` returns early, so no
summary is computed at all — in particular the summary is not the documented
all-zero Summary. -/
theorem empty_set_summary_not_computed :
    mainSummary [] = none ∧
    mainSummary [] ≠
      some { count := 0, average_score := 0, total_stars := 0, analyzed_count := 0 } :=
  ⟨rfl, fun h => Option.noConfusion h⟩

/-- C6 (amended): `main` computes no summary for an empty record list (it
returns early, so no NaN or division by zero can arise); whenever a summary is
computed, its count is the number of displayed records, its average times that
count is the total of the scores, its star total is the sum of stars, and its
analyzed count is the number of clarity-present records — all over the
already-truncated displayed list only. -/
theorem summary_characterization :
    mainSummary [] = none ∧
    (∀ (repos : List ViewRecord) (s : Summary), mainSummary repos = some s →
      s.count = repos.length ∧
      s.average_score * (repos.length : Rat) =
        (repos.map (fun r => r.final_score)).sum ∧
      s.total_stars = (repos.map (fun r => r.stars)).sum ∧
      s.analyzed_count = analyzedCount repos) := by
  refine ⟨rfl, ?_⟩
  intro repos s h
  unfold mainSummary at h
  by_cases he : repos.isEmpty
  · simp [he] at h
  · rw [if_neg he] at h
    obtain rfl := (Option.some.injEq _ _).mp h
    have hnil : repos ≠ [] := fun hrfl => he (by simp [hrfl])
    have hne : (repos.length : Rat) ≠ 0 :=
      Nat.cast_ne_zero.mpr (fun h0 => hnil (List.length_eq_zero.mp h0))
    exact ⟨rfl, div_mul_cancel₀ _ hne, rfl, rfl⟩

/-- C6 witness input instance. -/
theorem summary_characterization_witness :
    (⟨1, 3, 0, 0⟩ : Summary).count = ([viewB] : List ViewRecord).length ∧
    (⟨1, 3, 0, 0⟩ : Summary).average_score * (([viewB] : List ViewRecord).length : Rat) =
      (([viewB] : List ViewRecord).map (fun r => r.final_score)).sum ∧
    (⟨1, 3, 0, 0⟩ : Summary).total_stars =
      (([viewB] : List ViewRecord).map (fun r => r.stars)).sum ∧
    (⟨1, 3, 0, 0⟩ : Summary).analyzed_count = analyzedCount [viewB] :=
  summary_characterization.2 [viewB] ⟨1, 3, 0, 0⟩ (by
    simp [mainSummary, viewB, defaultView, analyzedCount, Summary.mk.injEq])

/-- C10: the overview statistics of `main` are guarded by the emptiness early
return, so whenever a summary is computed the displayed list is non-empty and
the average-score division has a strictly positive (hence nonzero) divisor. -/
theorem aggregate_guarded_by_nonempty (repos : List ViewRecord) (s : Summary)
    (h : mainSummary repos = some s) :
    repos ≠ [] ∧ 0 < repos.length ∧ ((repos.length : Rat) ≠ 0) := by
  unfold mainSummary at h
  by_cases he : repos.isEmpty
  · simp [he] at h
  · have hnil : repos ≠ [] := fun hrfl => he (by simp [hrfl])
    have hpos : 0 < repos.length := List.length_pos.mpr hnil
    exact ⟨hnil, hpos,
      Nat.cast_ne_zero.mpr (Nat.pos_iff_ne_zero.mp hpos)⟩

/-- C10 witness input instance. -/
theorem aggregate_guarded_by_nonempty_witness :
    ([viewB] : List ViewRecord) ≠ [] ∧ 0 < ([viewB] : List ViewRecord).length ∧
      ((([viewB] : List ViewRecord).length : Rat) ≠ 0) :=
  aggregate_guarded_by_nonempty [viewB] ⟨1, 3, 0, 0⟩ (by
    simp [mainSummary, viewB, defaultView, analyzedCount, Summary.mk.injEq])
